import Mathlib

/-!
Verification of the PTMDM file-lifecycle and spreadsheet-encoding core.

This development shallowly embeds the Python sources:
  - `ptmd/database/models/file.py` (the `File` model and its lifecycle methods),
  - `ptmd/const/spreadsheets.py` (`extract_empty_columns`, `DOSE_MAPPING`,
    `TIME_POINT_MAPPING`),
  - `ptmd/lib/data_extractor/core.py` (`extract_data_from_spreadsheet`).

Python exceptions are modelled by an explicit error type; methods that mutate
`self` are modelled as state-passing functions returning the possibly-raised
error together with the resulting object state. Collaborators that are not part
of the embedded core (the authorization context, the Google Drive connector,
the database query helpers) are passed in as parameters.
-/

deriving instance DecidableEq for Except

/-- Python exceptions raised by the embedded code, with their messages. -/
inductive PyErr where
  | permissionError (msg : String)
  | valueError (msg : String)
  | typeError (msg : String)
  | keyError (key : String)
  | indexError (msg : String)
deriving Repr, DecidableEq

/- ### Dates

Python `datetime` values are embedded as integers under a strictly monotone
encoding of the proleptic Gregorian calendar: day (y, m, d) is mapped to
`((y * 12 + (m - 1)) * 31 + (d - 1)) * 86400`. The encoding preserves the
lexicographic order of valid calendar dates, which is exactly the comparison
order of Python `datetime` objects; the factor 86400 leaves room for
intra-day instants (such as the value of `datetime.now()`), which are
arbitrary integers between consecutive day codes. -/

/-- Leap year test of the proleptic Gregorian calendar (as used by
`datetime`). -/
def isLeapYear (y : Nat) : Bool :=
  y % 4 == 0 && (y % 100 != 0 || y % 400 == 0)

/-- Number of days of month `m` in year `y`. -/
def daysInMonth (y m : Nat) : Nat :=
  if m == 2 then (if isLeapYear y then 29 else 28)
  else if m == 4 || m == 6 || m == 9 || m == 11 then 30
  else 31

/-- Order-preserving integer code of the calendar day (y, m, d). -/
def dateCode (y m d : Nat) : Int :=
  (((y * 12 + (m - 1)) * 31 + (d - 1) : Nat) : Int) * 86400

/-- Truncation of a datetime instant to midnight of its day: the effect of the
`strftime` / `strptime` round trip through the format string. -/
def dateTrunc (t : Int) : Int :=
  (Int.fdiv t 86400) * 86400

/-- Interpret a list of decimal digit characters as a number; `none` if the
list is empty or holds a non-digit. -/
def digitsToNat : List Char → Option Nat
  | [] => none
  | cs => go cs 0
where
  go : List Char → Nat → Option Nat
    | [], acc => some acc
    | c :: rest, acc =>
      if c.isDigit then go rest (acc * 10 + (c.toNat - 48)) else none

/-- Split a character list at every occurrence of the separator. -/
def splitSep (sep : Char) : List Char → List (List Char)
  | [] => [[]]
  | c :: rest =>
    let r := splitSep sep rest
    if c = sep then [] :: r
    else
      match r with
      | [] => [[c]]
      | g :: gs => (c :: g) :: gs

/-- Modelled from the Python standard library: `datetime.strptime(s, s1)`
where s1 is the year-month-day format used throughout `file.py`. Returns the
day code of the parsed calendar date, or `none` where Python raises
`ValueError` (wrong shape, non-digits, field too long, or an out-of-range
month or day). -/
def strptime (s : String) : Option Int :=
  match splitSep '-' s.toList with
  | [ys, ms, ds] => do
    let y ← digitsToNat ys
    let m ← digitsToNat ms
    let d ← digitsToNat ds
    if ys.length ≤ 4 ∧ ms.length ≤ 2 ∧ ds.length ≤ 2 ∧
        1 ≤ y ∧ y ≤ 9999 ∧ 1 ≤ m ∧ m ≤ 12 ∧ 1 ≤ d ∧ d ≤ daysInMonth y m then
      some (dateCode y m d)
    else none
  | _ => none

/- ### The authorization context and the File model -/

/-- The current caller, as supplied by the authorization context
(`get_current_user`); `file.py` consults only its identity and role. -/
structure User where
  id : Nat
  role : String
deriving Repr, DecidableEq

/-- The `File` database model of `ptmd/database/models/file.py`. Foreign keys
are carried as resolved integer identifiers; nullable datetime columns are
options. -/
structure File where
  file_id : Nat
  gdrive_id : String
  name : String
  batch : String
  validated : String
  replicates : Nat
  controls : Nat
  blanks : Nat
  shipped : Bool
  received : Bool
  start_date : Int
  end_date : Int
  ship_date : Option Int
  receive_date : Option Int
  organisation_id : Nat
  author_id : Nat
  organism_id : Nat
  vehicle_id : Nat
deriving Repr, DecidableEq

/- Error messages of `file.py`. Wording follows the source, with English
contractions expanded. -/

/-- Message of the permission error raised by `File.remove`. -/
def removePermissionMsg (fid : Nat) : String :=
  s!"You do not have permission to delete file {fid}."

/-- Message of the permission error raised by `File.shipment_was_received`. -/
def receivePermissionMsg (fid : Nat) : String :=
  s!"You do not have permission to update to receive shipment for file {fid}."

/-- Message of the permission error raised by `File.ship_samples`. -/
def shipPermissionMsg (fid : Nat) : String :=
  s!"You do not have permission to ship file {fid}."

/-- Message of the invalid-state error for receiving an unshipped file. -/
def notShippedMsg (fid : Nat) : String :=
  s!"File {fid} has not been shipped yet."

/-- Message of the invalid-state error for shipping an unvalidated file. -/
def notValidatedMsg (fid : Nat) : String :=
  s!"File {fid} has not been validated yet or has failed validation."

/-- Message of the invalid-state error for shipping a file twice. -/
def alreadyShippedMsg (fid : Nat) : String :=
  s!"File {fid} has already been shipped."

/-- Message of the ordering error for receiving before shipping. -/
def receivedBeforeShippedMsg (fid : Nat) : String :=
  s!"File {fid} cannot be received before it was shipped."

/-- Message of the ordering error raised by the date-validation step when the
date precedes the start date. -/
def beforeStartDateMsg (fid : Nat) (field : String) : String :=
  s!"File {fid} cannot be {field} before the start date of the experiment."

/-- Message of the ordering error raised by the date-validation step when the
date precedes the end date. -/
def beforeEndDateMsg (fid : Nat) (field : String) : String :=
  s!"File {fid} cannot be {field} before the end date of the experiment."

/-- Message of the `ValueError` raised by `strptime` on a malformed date. -/
def strptimeFailMsg : String :=
  "time data does not match the expected format"

/-- An ordering error of the date-validation step: one of the two
date-precedence `ValueError` messages. -/
def IsOrderingError (fid : Nat) (field : String) (e : PyErr) : Prop :=
  e = .valueError (beforeStartDateMsg fid field) ∨
  e = .valueError (beforeEndDateMsg fid field)

/-- Embeds `File.__validate_time`. The stored start and end dates are passed
through the `strftime` / `strptime` round trip (`dateTrunc`); the candidate
instant is the parse of the caller-supplied string when one is given, else the
current time `now`. Raises an ordering `ValueError` when the candidate
precedes the (truncated) start date or the (truncated) end date. -/
def File.validate_time (f : File) (at_ : Option String) (now : Int)
    (field : String) : Except PyErr Int :=
  let start_date := dateTrunc f.start_date
  let end_date := dateTrunc f.end_date
  let parsed : Except PyErr Int :=
    match at_ with
    | some s =>
      match strptime s with
      | some t => .ok t
      | none => .error (.valueError strptimeFailMsg)
    | none => .ok now
  match parsed with
  | .error e => .error e
  | .ok shipped_at =>
    if shipped_at < start_date then
      .error (.valueError (beforeStartDateMsg f.file_id field))
    else if shipped_at < end_date then
      .error (.valueError (beforeEndDateMsg f.file_id field))
    else .ok shipped_at

/-- Embeds `File.shipment_was_received`. The caller is the value returned by
the authorization context; `now` stands for `datetime.now()`. Returns the
raised exception (if any) together with the resulting object state; field
assignments happen only after every guard has passed, mirroring the source
order. -/
def File.shipment_was_received (f : File) (user : Option User)
    (at_ : Option String) (now : Int) : Option PyErr × File :=
  match user with
  | none => (some (.permissionError (receivePermissionMsg f.file_id)), f)
  | some u =>
    if u.role ≠ "admin" then
      (some (.permissionError (receivePermissionMsg f.file_id)), f)
    else if f.shipped = false then
      (some (.valueError (notShippedMsg f.file_id)), f)
    else
      match f.validate_time at_ now "received" with
      | .error e => (some e, f)
      | .ok received_at =>
        match f.ship_date with
        | none =>
          (some (.typeError "comparison of datetime and NoneType"), f)
        | some sd =>
          if received_at < sd then
            (some (.valueError (receivedBeforeShippedMsg f.file_id)), f)
          else
            (none, { f with received := true, receive_date := some received_at })

/-- Embeds `File.ship_samples`: permission guard, validation-status guard,
already-shipped guard, date validation, then the two field assignments. -/
def File.ship_samples (f : File) (user : Option User)
    (at_ : Option String) (now : Int) : Option PyErr × File :=
  match user with
  | none => (some (.permissionError (shipPermissionMsg f.file_id)), f)
  | some u =>
    if u.id ≠ f.author_id ∧ u.role ≠ "admin" then
      (some (.permissionError (shipPermissionMsg f.file_id)), f)
    else if f.validated ≠ "success" then
      (some (.valueError (notValidatedMsg f.file_id)), f)
    else if f.shipped = true then
      (some (.valueError (alreadyShippedMsg f.file_id)), f)
    else
      match f.validate_time at_ now "shipped" with
      | .error e => (some e, f)
      | .ok shipped_at =>
        (none, { f with shipped := true, ship_date := some shipped_at })

/-- Outcome of `File.remove` on the two stores it touches: whether the Google
Drive copy was deleted and whether the local database record was deleted. -/
structure RemoveState where
  drive_deleted : Bool
  record_deleted : Bool
deriving Repr, DecidableEq

/-- Embeds `File.remove`. `drive` is the outcome of the Google Drive
collaborator call (`connector.delete_file`): success, or the exception it
raises. A `PermissionError` from the drive is absorbed by the `try` block;
the `finally` block deletes the database record whenever the permission guard
has passed, so a non-permission drive exception propagates after the record
deletion. -/
def File.remove (f : File) (user : Option User)
    (drive : Except PyErr Unit) : Option PyErr × RemoveState :=
  match user with
  | none =>
    (some (.permissionError (removePermissionMsg f.file_id)),
     { drive_deleted := false, record_deleted := false })
  | some u =>
    if u.id ≠ f.author_id ∧ u.role ≠ "admin" then
      (some (.permissionError (removePermissionMsg f.file_id)),
       { drive_deleted := false, record_deleted := false })
    else
      match drive with
      | .ok _ => (none, { drive_deleted := true, record_deleted := true })
      | .error (.permissionError _) =>
        (none, { drive_deleted := false, record_deleted := true })
      | .error e => (some e, { drive_deleted := false, record_deleted := true })

/-- Embeds `File.__init__`. The foreign keys resolved through database
lookups in the constructor are passed as already-resolved identifiers; the
two date strings go through `strptime`, which raises on a malformed date.
Column defaults apply: `validated = "No"`, `shipped = received = false`,
null ship and receive dates. -/
def File.init (gdrive_id name batch : String)
    (replicates controls blanks : Nat)
    (organisation_id user_id organism_id vehicle_id : Nat)
    (start_date end_date : String) (file_id : Nat) : Except PyErr File :=
  match strptime start_date with
  | none => .error (.valueError strptimeFailMsg)
  | some sd =>
    match strptime end_date with
    | none => .error (.valueError strptimeFailMsg)
    | some ed =>
      .ok { file_id, gdrive_id, name, batch, validated := "No",
            replicates, controls, blanks,
            shipped := false, received := false,
            start_date := sd, end_date := ed,
            ship_date := none, receive_date := none,
            organisation_id, author_id := user_id, organism_id, vehicle_id }

/-- Modelled from the spec: the validate transition (the API layer sets the
validation status to success or failed per the validator report; that layer
is outside the embedded core). It updates only the `validated` field. -/
def File.set_validated (f : File) (status : String) : File :=
  { f with validated := status }

/-- The files reachable through the lifecycle operations: construction,
validation-status updates, shipping and reception (with any caller, any
caller-supplied date and any current time). -/
inductive Reachable : File → Prop where
  | init (gdrive_id name batch : String) (replicates controls blanks : Nat)
      (organisation_id user_id organism_id vehicle_id : Nat)
      (start_date end_date : String) (file_id : Nat) (f : File) :
      File.init gdrive_id name batch replicates controls blanks
        organisation_id user_id organism_id vehicle_id
        start_date end_date file_id = .ok f →
      Reachable f
  | validate (f : File) (status : String) :
      Reachable f → Reachable (f.set_validated status)
  | ship (f : File) (user : Option User) (at_ : Option String) (now : Int) :
      Reachable f → Reachable (f.ship_samples user at_ now).2
  | receive (f : File) (user : Option User) (at_ : Option String) (now : Int) :
      Reachable f → Reachable (f.shipment_was_received user at_ now).2

/- ### Spreadsheet constants (`ptmd/const/spreadsheets.py`) -/

/-- The metadata of one field of the exposure-information schema, as read by
`extract_empty_columns`: a role tag and an order number. -/
structure FieldMeta where
  role : String
  order : Nat
deriving Repr, DecidableEq

/-- Python dict insertion into an association list: replacing a present key
keeps its position, a fresh key is appended. -/
def dictInsert (m : List (Nat × String)) (k : Nat) (v : String) :
    List (Nat × String) :=
  if m.any (fun p => p.1 = k) then
    m.map (fun p => if p.1 = k then (k, v) else p)
  else m ++ [(k, v)]

/-- Python dict subscript on an association list built by `dictInsert`. -/
def dictGet (m : List (Nat × String)) (k : Nat) : Option String :=
  (m.find? (fun p => p.1 = k)).map (fun p => p.2)

/-- The `fields_map` dict built by the first loop of `extract_empty_columns`:
order value to field name, over the fields whose role tag is user. -/
def fieldsMap (props : List (String × FieldMeta)) : List (Nat × String) :=
  props.foldl
    (fun m p => if p.2.role = "user" then dictInsert m p.2.order p.1 else m) []

/-- The second loop of `extract_empty_columns`: subscript `fields_map` at
1, 2, ..., collecting the names; a missing key raises `KeyError`. -/
def collectFields (m : List (Nat × String)) : List Nat → Except PyErr (List String)
  | [] => .ok []
  | i :: rest =>
    match dictGet m i with
    | none => .error (.keyError (toString i))
    | some v =>
      match collectFields m rest with
      | .error e => .error e
      | .ok l => .ok (v :: l)

/-- Embeds `extract_empty_columns` of `ptmd/const/spreadsheets.py`,
parameterized by the properties of the exposure-information schema (a Python
dict, i.e. field name and metadata in insertion order). -/
def extract_empty_columns (props : List (String × FieldMeta)) :
    Except PyErr (List String) :=
  let fields_map := fieldsMap props
  collectFields fields_map ((List.range fields_map.length).map (· + 1))

/-- A Python dict key as used by `DOSE_MAPPING`: an integer or a string
(`0 == "0"` is false in Python, so the two zero keys are distinct). -/
inductive PyKey where
  | intKey (n : Int)
  | strKey (s : String)
deriving Repr, DecidableEq

/-- The entries of the `DOSE_MAPPING` dict literal, in source order. -/
def DOSE_MAPPING : List (PyKey × String) :=
  [(.intKey 0, "Z"), (.strKey "0", "Z"), (.strKey "BMD10", "L"),
   (.strKey "BMD25", "M"), (.strKey "10mg/L", "H")]

/-- The entries of the `TIME_POINT_MAPPING` dict literal, in source order. -/
def TIME_POINT_MAPPING : List (String × String) :=
  [("TP0", "S"), ("TP1", "A"), ("TP2", "B"),
   ("TP3", "C"), ("TP4", "D"), ("TP5", "E")]

/-- Dict subscript on `DOSE_MAPPING`: `none` models the `KeyError` raised on
a key outside the dict. -/
def doseLookup (k : PyKey) : Option String :=
  (DOSE_MAPPING.find? (fun p => p.1 = k)).map (fun p => p.2)

/-- Dict subscript on `TIME_POINT_MAPPING`. -/
def timePointLookup (k : String) : Option String :=
  (TIME_POINT_MAPPING.find? (fun p => p.1 = k)).map (fun p => p.2)

/- ### Spreadsheet extractor (`ptmd/lib/data_extractor/core.py`) -/

/-- A spreadsheet cell value as surfaced by the pandas parse: a string or a
number. -/
inductive Cell where
  | str (s : String)
  | num (n : Int)
deriving Repr, DecidableEq

/-- The parsed spreadsheet: the rows of the General Information sheet (each a
record mapping column name to cell), and the compound-name column of the
Exposure information sheet (the only column the extractor reads). -/
structure Spreadsheet where
  general_information : List (List (String × Cell))
  exposure_compound_name : List String
deriving Repr, DecidableEq

/-- Subscript of a general-information record by column name; a missing
column raises `KeyError`. -/
def recordGet (row : List (String × Cell)) (k : String) : Except PyErr Cell :=
  match row.find? (fun p => p.1 = k) with
  | some p => .ok p.2
  | none => .error (.keyError k)

/-- Interpret a list of decimal digit characters as an integer with an
optional leading minus sign. -/
def intLit (cs : List Char) : Option Int :=
  match cs with
  | '-' :: ds => (digitsToNat ds).map (fun n => -(n : Int))
  | ds => (digitsToNat ds).map (fun n => (n : Int))

/-- Modelled from the Python standard library: `json.loads` restricted to
flat integer arrays, the only shape the extractor stores in the timepoints
field; any other input is a decode error. -/
def json_loads_int_list (s : String) : Except PyErr (List Int) :=
  let cs := s.toList.filter (fun c => c ≠ ' ')
  match cs with
  | '[' :: rest =>
    match rest.getLast? with
    | some ']' =>
      let inner := rest.dropLast
      if inner.isEmpty then .ok []
      else
        let items := (splitSep ',' inner).map intLit
        if items.all (fun o => o.isSome) then
          .ok (items.filterMap id)
        else .error (.valueError "JSON decode error")
    | _ => .error (.valueError "JSON decode error")
  | _ => .error (.valueError "JSON decode error")

/-- Python `list(set(xs))` on a list of strings. The iteration order of a
Python set is unspecified; this model keeps first occurrences, and only
order-independent facts (length, membership, absence of repeats) are proved
about it. -/
def pySet (xs : List String) : List String :=
  xs.eraseDups

/-- One entry of the extraction record returned by the extractor: a cell
copied from the general-information row, the timepoint references returned by
`create_timepoints_hours`, or the chemicals returned by
`get_chemicals_from_name` (references modelled as opaque identifiers). -/
inductive EValue where
  | cell (c : Cell)
  | tps (l : List Nat)
  | chems (l : List Nat)
deriving Repr, DecidableEq

/-- Embeds `extract_data_from_spreadsheet`, parameterized by its two database
collaborators (`create_timepoints_hours` and `get_chemicals_from_name`, which
may raise) and by the parsed workbook. Steps follow source order: first row
of the general-information sheet (an empty sheet raises `IndexError`), decode
of the serialized timepoints list, then the eleven entries of the returned
dict literal. -/
def extract_data_from_spreadsheet
    (create_timepoints_hours : List Int → Except PyErr (List Nat))
    (get_chemicals_from_name : List String → Except PyErr (List Nat))
    (file_handler : Spreadsheet) :
    Except PyErr (List (String × EValue)) := do
  let general_information ←
    match file_handler.general_information.head? with
    | some r => Except.ok r
    | none => Except.error (.indexError "list index out of range")
  let tpCell ← recordGet general_information "timepoints"
  let tpStr ←
    match tpCell with
    | .str s => Except.ok s
    | .num _ => Except.error (.typeError "the JSON object must be str")
  let timepoints_values ← json_loads_int_list tpStr
  let replicates ← recordGet general_information "replicates"
  let control ← recordGet general_information "control"
  let blanks ← recordGet general_information "blanks"
  let compound_vehicle ← recordGet general_information "compound_vehicle"
  let tps ← create_timepoints_hours timepoints_values
  let chems ←
    get_chemicals_from_name (pySet file_handler.exposure_compound_name)
  let biosystem_name ← recordGet general_information "biosystem_name"
  let exposure_batch ← recordGet general_information "exposure_batch"
  let partner_id ← recordGet general_information "partner_id"
  let start_date ← recordGet general_information "exposure_batch_startdate"
  let end_date ← recordGet general_information "exposure_batch_enddate"
  return [("replicates", .cell replicates),
          ("controls", .cell control),
          ("blanks", .cell blanks),
          ("vehicle_name", .cell compound_vehicle),
          ("timepoints", .tps tps),
          ("chemicals", .chems chems),
          ("organism_name", .cell biosystem_name),
          ("batch", .cell exposure_batch),
          ("organisation_name", .cell partner_id),
          ("start_date", .cell start_date),
          ("end_date", .cell end_date)]

/-- The column names of the extraction record, in source order. -/
def extractionRecordKeys : List String :=
  ["replicates", "controls", "blanks", "vehicle_name", "timepoints",
   "chemicals", "organism_name", "batch", "organisation_name",
   "start_date", "end_date"]

/- ### Sample data used by the witnesses -/

/-- A freshly constructed file: author 7, start date 2024-01-01, end date
2024-01-10, validation status and shipping flags at their column defaults. -/
def fileA : File :=
  { file_id := 1, gdrive_id := "gd", name := "file", batch := "AA",
    validated := "No", replicates := 1, controls := 1, blanks := 1,
    shipped := false, received := false,
    start_date := dateCode 2024 1 1, end_date := dateCode 2024 1 10,
    ship_date := none, receive_date := none,
    organisation_id := 1, author_id := 7, organism_id := 1, vehicle_id := 1 }

/-- The author of `fileA` in the authorization context. -/
def authorUser : User := { id := 7, role := "user" }

/-- An administrator in the authorization context. -/
def adminUser : User := { id := 99, role := "admin" }

/-- `fileA` after a successful validation. -/
def fileB : File := fileA.set_validated "success"

/-- `fileB` after the author ships it on 2024-01-15. -/
def fileC : File := (fileB.ship_samples (some authorUser) (some "2024-01-15") 0).2

/-- `fileC` after an administrator receives it on 2024-01-20. -/
def fileD : File := (fileC.shipment_was_received (some adminUser) (some "2024-01-20") 0).2

/- ### Helper lemmas on the lifecycle operations -/

/-- `ship_samples` either raises (leaving the state unchanged) or succeeds. -/
theorem ship_samples_unchanged_or_ok (f : File) (user : Option User)
    (at_ : Option String) (now : Int) :
    (f.ship_samples user at_ now).1 = none ∨
      (f.ship_samples user at_ now).2 = f := by
  unfold File.ship_samples
  rcases user with _ | u
  · exact Or.inr rfl
  · dsimp only
    split
    · exact Or.inr rfl
    · split
      · exact Or.inr rfl
      · split
        · exact Or.inr rfl
        · split
          · exact Or.inr rfl
          · exact Or.inl rfl

/-- `shipment_was_received` either raises (leaving the state unchanged) or
succeeds. -/
theorem shipment_was_received_unchanged_or_ok (f : File) (user : Option User)
    (at_ : Option String) (now : Int) :
    (f.shipment_was_received user at_ now).1 = none ∨
      (f.shipment_was_received user at_ now).2 = f := by
  unfold File.shipment_was_received
  rcases user with _ | u
  · exact Or.inr rfl
  · dsimp only
    split
    · exact Or.inr rfl
    · split
      · exact Or.inr rfl
      · split
        · exact Or.inr rfl
        · split
          · exact Or.inr rfl
          · split
            · exact Or.inr rfl
            · exact Or.inl rfl

/-- Characterization of a successful `ship_samples` call: every guard passed
and the result sets exactly the shipped flag and the ship date. -/
theorem ship_samples_ok (f : File) (user : Option User) (at_ : Option String)
    (now : Int) (f1 : File)
    (h : f.ship_samples user at_ now = (none, f1)) :
    ∃ u t, user = some u ∧ ¬(u.id ≠ f.author_id ∧ u.role ≠ "admin") ∧
      f.validated = "success" ∧ f.shipped = false ∧
      f.validate_time at_ now "shipped" = .ok t ∧
      f1 = { f with shipped := true, ship_date := some t } := by
  unfold File.ship_samples at h
  rcases user with _ | u
  · simp at h
  · dsimp only at h
    split at h
    · simp at h
    · next h1 =>
      split at h
      · simp at h
      · next h2 =>
        split at h
        · simp at h
        · next h3 =>
          split at h
          · simp at h
          · next t heq =>
            obtain ⟨-, rfl⟩ := Prod.mk.injEq .. ▸ h
            exact ⟨u, t, rfl, h1, not_ne_iff.mp h2,
              Bool.not_eq_true _ ▸ h3, heq, rfl⟩

/-- Characterization of a successful `shipment_was_received` call. -/
theorem shipment_was_received_ok (f : File) (user : Option User)
    (at_ : Option String) (now : Int) (f1 : File)
    (h : f.shipment_was_received user at_ now = (none, f1)) :
    ∃ u t sd, user = some u ∧ u.role = "admin" ∧ f.shipped = true ∧
      f.validate_time at_ now "received" = .ok t ∧
      f.ship_date = some sd ∧ ¬ t < sd ∧
      f1 = { f with received := true, receive_date := some t } := by
  unfold File.shipment_was_received at h
  rcases user with _ | u
  · simp at h
  · dsimp only at h
    split at h
    · simp at h
    · next h1 =>
      split at h
      · simp at h
      · next h2 =>
        split at h
        · next e heq => simp at h
        · next t heq =>
          split at h
          · simp at h
          · next sd hsd =>
            split at h
            · simp at h
            · next h4 =>
              obtain ⟨-, rfl⟩ := Prod.mk.injEq .. ▸ h
              exact ⟨u, t, sd, rfl, not_ne_iff.mp h1,
                Bool.of_not_eq_false h2, heq, hsd, h4, rfl⟩

/- ### C7: the mapping tables -/

/-- C7. The dose dict sends the integer 0 and the string 0 to Z, BMD10 to L,
BMD25 to M and 10mg/L to H; the timepoint dict sends TP0..TP5 to
S, A, B, C, D, E; lookup of any key outside the declared entries fails
(models the `KeyError`). -/
theorem C7_mapping_tables :
    (doseLookup (.intKey 0) = some "Z" ∧
     doseLookup (.strKey "0") = some "Z" ∧
     doseLookup (.strKey "BMD10") = some "L" ∧
     doseLookup (.strKey "BMD25") = some "M" ∧
     doseLookup (.strKey "10mg/L") = some "H") ∧
    (timePointLookup "TP0" = some "S" ∧ timePointLookup "TP1" = some "A" ∧
     timePointLookup "TP2" = some "B" ∧ timePointLookup "TP3" = some "C" ∧
     timePointLookup "TP4" = some "D" ∧ timePointLookup "TP5" = some "E") ∧
    (∀ k : PyKey, k ∉ DOSE_MAPPING.map Prod.fst → doseLookup k = none) ∧
    (∀ k : String, k ∉ TIME_POINT_MAPPING.map Prod.fst →
      timePointLookup k = none) := by
  refine ⟨⟨rfl, rfl, rfl, rfl, rfl⟩, ⟨rfl, rfl, rfl, rfl, rfl, rfl⟩, ?_, ?_⟩
  · intro k hk
    have hnone : DOSE_MAPPING.find? (fun p => p.1 = k) = none := by
      rw [List.find?_eq_none]
      intro p hp
      simp only [decide_eq_true_eq]
      intro hpk
      exact hk (hpk ▸ List.mem_map_of_mem Prod.fst hp)
    simp [doseLookup, hnone]
  · intro k hk
    have hnone : TIME_POINT_MAPPING.find? (fun p => p.1 = k) = none := by
      rw [List.find?_eq_none]
      intro p hp
      simp only [decide_eq_true_eq]
      intro hpk
      exact hk (hpk ▸ List.mem_map_of_mem Prod.fst hp)
    simp [timePointLookup, hnone]

/-- Witness for C7 at two concrete out-of-domain keys. -/
theorem C7_mapping_tables_witness :
    doseLookup (.strKey "BMD50") = none ∧ timePointLookup "TP6" = none :=
  ⟨C7_mapping_tables.2.2.1 (.strKey "BMD50") (by decide),
   C7_mapping_tables.2.2.2 "TP6" (by decide)⟩

/- ### C4: remove asymmetry -/

/-- C4. When the caller is the author or an admin, a `PermissionError` from
the drive deletion is absorbed and the database record is still deleted; when
the caller is neither (or there is no caller), `remove` raises
`PermissionError` and deletes neither the drive copy nor the record. -/
theorem C4_remove_asymmetry :
    (∀ (f : File) (u : User) (msg : String),
        u.id = f.author_id ∨ u.role = "admin" →
        f.remove (some u) (.error (.permissionError msg)) =
          (none, { drive_deleted := false, record_deleted := true })) ∧
    (∀ (f : File) (u : User) (drive : Except PyErr Unit),
        u.id ≠ f.author_id → u.role ≠ "admin" →
        f.remove (some u) drive =
          (some (.permissionError (removePermissionMsg f.file_id)),
           { drive_deleted := false, record_deleted := false })) ∧
    (∀ (f : File) (drive : Except PyErr Unit),
        f.remove none drive =
          (some (.permissionError (removePermissionMsg f.file_id)),
           { drive_deleted := false, record_deleted := false })) := by
  refine ⟨?_, ?_, ?_⟩
  · intro f u msg h
    have hg : ¬(u.id ≠ f.author_id ∧ u.role ≠ "admin") := by
      rcases h with h | h
      · exact fun hc => hc.1 h
      · exact fun hc => hc.2 h
    unfold File.remove
    simp [hg]
  · intro f u drive h1 h2
    unfold File.remove
    simp [h1, h2]
  · intro f drive
    rfl

/-- Witness for C4: the author removes `fileA` while the drive call raises a
permission error (record still deleted); a stranger cannot remove it. -/
theorem C4_remove_asymmetry_witness :
    fileA.remove (some authorUser) (.error (.permissionError "insufficient")) =
      (none, { drive_deleted := false, record_deleted := true }) ∧
    fileA.remove (some { id := 8, role := "user" }) (.ok ()) =
      (some (.permissionError (removePermissionMsg 1)),
       { drive_deleted := false, record_deleted := false }) :=
  ⟨C4_remove_asymmetry.1 fileA authorUser "insufficient" (Or.inl rfl),
   C4_remove_asymmetry.2.1 fileA { id := 8, role := "user" } (.ok ())
     (by decide) (by decide)⟩

/- ### C10: guard-failure atomicity -/

/-- C10. Whenever `ship_samples` or `shipment_was_received` raises, the file
is exactly as it was before the call: all guards run before any field
assignment. -/
theorem C10_guard_failure_atomicity :
    ∀ (f : File) (user : Option User) (at_ : Option String) (now : Int),
      ((f.ship_samples user at_ now).1.isSome = true →
        (f.ship_samples user at_ now).2 = f) ∧
      ((f.shipment_was_received user at_ now).1.isSome = true →
        (f.shipment_was_received user at_ now).2 = f) := by
  intro f user at_ now
  constructor
  · intro h
    rcases ship_samples_unchanged_or_ok f user at_ now with h1 | h1
    · rw [h1] at h; simp at h
    · exact h1
  · intro h
    rcases shipment_was_received_unchanged_or_ok f user at_ now with h1 | h1
    · rw [h1] at h; simp at h
    · exact h1

/-- Witness for C10: an unauthenticated ship and receive of `fileA` raise and
leave the file unchanged. -/
theorem C10_guard_failure_atomicity_witness :
    (fileA.ship_samples none none 0).2 = fileA ∧
    (fileA.shipment_was_received none none 0).2 = fileA :=
  ⟨(C10_guard_failure_atomicity fileA none none 0).1 (by decide),
   (C10_guard_failure_atomicity fileA none none 0).2 (by decide)⟩

/- ### C3: state-machine guards -/

/-- C3. With an authorized caller, shipping an already-shipped file raises an
invalid-state `ValueError` (the not-validated or the already-shipped message,
per the guard order of the source); shipping a file whose validation status
is not success raises the not-validated `ValueError`; a second ship right
after a successful ship fails for every caller; receiving an unshipped file
raises the not-shipped `ValueError`. In every case the file is unchanged. -/
theorem C3_state_machine_guards :
    (∀ (f : File) (u : User) (at_ : Option String) (now : Int),
        u.id = f.author_id ∨ u.role = "admin" → f.shipped = true →
        ∃ e, f.ship_samples (some u) at_ now = (some e, f) ∧
          (e = .valueError (notValidatedMsg f.file_id) ∨
           e = .valueError (alreadyShippedMsg f.file_id))) ∧
    (∀ (f : File) (u : User) (at_ : Option String) (now : Int),
        u.id = f.author_id ∨ u.role = "admin" → f.validated ≠ "success" →
        f.ship_samples (some u) at_ now =
          (some (.valueError (notValidatedMsg f.file_id)), f)) ∧
    (∀ (f f1 : File) (user1 user2 : Option User)
        (at1 at2 : Option String) (now1 now2 : Int),
        f.ship_samples user1 at1 now1 = (none, f1) →
        ∃ e, f1.ship_samples user2 at2 now2 = (some e, f1)) ∧
    (∀ (f : File) (u : User) (at_ : Option String) (now : Int),
        u.role = "admin" → f.shipped = false →
        f.shipment_was_received (some u) at_ now =
          (some (.valueError (notShippedMsg f.file_id)), f)) := by
  have hperm : ∀ (f : File) (u : User), u.id = f.author_id ∨ u.role = "admin" →
      ¬(u.id ≠ f.author_id ∧ u.role ≠ "admin") := by
    intro f u h
    rcases h with h | h
    · exact fun hc => hc.1 h
    · exact fun hc => hc.2 h
  refine ⟨?_, ?_, ?_, ?_⟩
  · intro f u at_ now hu hsh
    unfold File.ship_samples
    dsimp only
    rw [if_neg (hperm f u hu)]
    by_cases hv : f.validated ≠ "success"
    · rw [if_pos hv]
      exact ⟨_, rfl, Or.inl rfl⟩
    · rw [if_neg hv, if_pos hsh]
      exact ⟨_, rfl, Or.inr rfl⟩
  · intro f u at_ now hu hv
    unfold File.ship_samples
    dsimp only
    rw [if_neg (hperm f u hu), if_pos hv]
  · intro f f1 user1 user2 at1 at2 now1 now2 h
    obtain ⟨u, t, -, -, hval, -, -, rfl⟩ :=
      ship_samples_ok f user1 at1 now1 f1 h
    unfold File.ship_samples
    rcases user2 with _ | u2
    · exact ⟨_, rfl⟩
    · dsimp only
      split
      · exact ⟨_, rfl⟩
      · rw [if_neg, if_pos]
        · exact ⟨_, rfl⟩
        · rfl
        · intro hne
          exact hne hval
  · intro f u at_ now hu hsh
    unfold File.shipment_was_received
    dsimp only
    rw [if_neg, if_pos]
    · rw [hsh]
    · intro hne
      exact hne hu

/-- Witness for C3 at concrete inputs: a double ship of the validated file
`fileB` by its author; shipping the unvalidated `fileA`; receiving the
unshipped `fileA` as admin. -/
theorem C3_state_machine_guards_witness :
    (∃ e, fileC.ship_samples (some authorUser) (some "2024-01-16") 0 =
        (some e, fileC) ∧
      (e = .valueError (notValidatedMsg fileC.file_id) ∨
       e = .valueError (alreadyShippedMsg fileC.file_id))) ∧
    (∃ e, fileC.ship_samples (some adminUser) none 0 = (some e, fileC)) ∧
    fileA.ship_samples (some authorUser) none 0 =
      (some (.valueError (notValidatedMsg 1)), fileA) ∧
    fileA.shipment_was_received (some adminUser) none 0 =
      (some (.valueError (notShippedMsg 1)), fileA) :=
  ⟨C3_state_machine_guards.1 fileC authorUser (some "2024-01-16") 0
      (Or.inl (by decide)) (by decide),
   C3_state_machine_guards.2.2.1 fileB fileC (some authorUser) (some adminUser)
      (some "2024-01-15") none 0 0 (by decide),
   C3_state_machine_guards.2.1 fileA authorUser none 0
      (Or.inl (by decide)) (by decide),
   C3_state_machine_guards.2.2.2 fileA adminUser none 0 (by decide) (by decide)⟩

/- ### C1: date ordering on lifecycle transitions -/

/-- Unfolding of the date-validation step on a caller-supplied date string
that parses to `t`. -/
theorem validate_time_some (f : File) (s : String) (t : Int) (now : Int)
    (field : String) (hp : strptime s = some t) :
    f.validate_time (some s) now field =
      (if t < dateTrunc f.start_date then
        .error (.valueError (beforeStartDateMsg f.file_id field))
      else if t < dateTrunc f.end_date then
        .error (.valueError (beforeEndDateMsg f.file_id field))
      else .ok t) := by
  unfold File.validate_time
  dsimp only
  rw [hp]

/-- Unfolding of the date-validation step on the current time. -/
theorem validate_time_none (f : File) (now : Int) (field : String) :
    f.validate_time none now field =
      (if now < dateTrunc f.start_date then
        .error (.valueError (beforeStartDateMsg f.file_id field))
      else if now < dateTrunc f.end_date then
        .error (.valueError (beforeEndDateMsg f.file_id field))
      else .ok now) := by
  unfold File.validate_time
  dsimp only

/-- C1. On a file whose start and end dates are day-granular (as every file
built by the constructor is), the date-validation step shared by
`ship_samples` and `shipment_was_received` raises an ordering `ValueError`
whenever the parsed caller-supplied date, or the current time when no date is
supplied, precedes the start date or the end date; in particular a receive
call on a shipped file with a caller-supplied date strictly before the end
date fails with an ordering error even for an admin caller, and the file is
unchanged. -/
theorem C1_date_ordering :
    (∀ (f : File) (s : String) (t now : Int) (field : String),
        strptime s = some t →
        dateTrunc f.start_date = f.start_date →
        dateTrunc f.end_date = f.end_date →
        t < f.start_date ∨ t < f.end_date →
        ∃ e, f.validate_time (some s) now field = .error e ∧
          IsOrderingError f.file_id field e) ∧
    (∀ (f : File) (now : Int) (field : String),
        dateTrunc f.start_date = f.start_date →
        dateTrunc f.end_date = f.end_date →
        now < f.start_date ∨ now < f.end_date →
        ∃ e, f.validate_time none now field = .error e ∧
          IsOrderingError f.file_id field e) ∧
    (∀ (f : File) (u : User) (s : String) (t now : Int),
        u.role = "admin" → f.shipped = true →
        dateTrunc f.start_date = f.start_date →
        dateTrunc f.end_date = f.end_date →
        strptime s = some t → t < f.end_date →
        ∃ e, f.shipment_was_received (some u) (some s) now = (some e, f) ∧
          IsOrderingError f.file_id "received" e) := by
  have key : ∀ (f : File) (t : Int) (field : String),
      dateTrunc f.start_date = f.start_date →
      dateTrunc f.end_date = f.end_date →
      t < f.start_date ∨ t < f.end_date →
      ∃ e, (if t < dateTrunc f.start_date then
              Except.error (ε := PyErr) (α := Int)
                (.valueError (beforeStartDateMsg f.file_id field))
            else if t < dateTrunc f.end_date then
              .error (.valueError (beforeEndDateMsg f.file_id field))
            else .ok t) = .error e ∧
        IsOrderingError f.file_id field e := by
    intro f t field hs he hlt
    rw [hs, he]
    by_cases h1 : t < f.start_date
    · rw [if_pos h1]
      exact ⟨_, rfl, Or.inl rfl⟩
    · rw [if_neg h1]
      have h2 : t < f.end_date := by
        rcases hlt with h | h
        · exact absurd h h1
        · exact h
      rw [if_pos h2]
      exact ⟨_, rfl, Or.inr rfl⟩
  refine ⟨?_, ?_, ?_⟩
  · intro f s t now field hp hs he hlt
    rw [validate_time_some f s t now field hp]
    exact key f t field hs he hlt
  · intro f now field hs he hlt
    rw [validate_time_none f now field]
    exact key f now field hs he hlt
  · intro f u s t now hadmin hsh hs he hp hlt
    obtain ⟨e, herr, hord⟩ :=
      key f t "received" hs he (Or.inr hlt)
    refine ⟨e, ?_, hord⟩
    unfold File.shipment_was_received
    dsimp only
    rw [if_neg, if_neg]
    · rw [validate_time_some f s t now "received" hp, herr]
    · rw [hsh]
      intro hc
      exact Bool.noConfusion hc
    · intro hne
      exact hne hadmin

/-- Witness for C1: on `fileC` (end date 2024-01-10, shipped), the date
2024-01-05 is rejected by the date-validation step and by an admin receive,
leaving the file unchanged. -/
theorem C1_date_ordering_witness :
    (∃ e, fileC.validate_time (some "2024-01-05") 0 "received" = .error e ∧
      IsOrderingError fileC.file_id "received" e) ∧
    (∃ e, fileC.shipment_was_received (some adminUser) (some "2024-01-05") 0 =
        (some e, fileC) ∧
      IsOrderingError fileC.file_id "received" e) :=
  ⟨C1_date_ordering.1 fileC "2024-01-05" (dateCode 2024 1 5) 0 "received"
      (by decide) (by decide) (by decide) (Or.inr (by decide)),
   C1_date_ordering.2.2 fileC adminUser "2024-01-05" (dateCode 2024 1 5) 0
      (by decide) (by decide) (by decide) (by decide) (by decide) (by decide)⟩

/- ### C2: shipment-reception invariant -/

/-- The shipment invariant: a received file was shipped, and both dates are
set with the reception date no earlier than the ship date. -/
def ShipInv (f : File) : Prop :=
  f.received = true →
    f.shipped = true ∧
    ∃ rd sd, f.receive_date = some rd ∧ f.ship_date = some sd ∧ sd ≤ rd

/-- Every file reachable through the lifecycle operations satisfies the
shipment invariant. -/
theorem reachable_ship_inv : ∀ f, Reachable f → ShipInv f := by
  intro f h
  induction h with
  | init g n b r c bl oi ui orgi vi sds eds fid f0 h0 =>
    unfold File.init at h0
    split at h0
    · exact absurd h0 (by simp)
    · split at h0
      · exact absurd h0 (by simp)
      · cases h0
        intro hr
        simp at hr
  | validate f0 status hR ih =>
    intro hr
    exact ih hr
  | ship f0 user at_ now hR ih =>
    rcases hres : File.ship_samples f0 user at_ now with ⟨err, f1⟩
    dsimp only
    cases err with
    | some e =>
      rcases ship_samples_unchanged_or_ok f0 user at_ now with h2 | h2 <;>
        rw [hres] at h2
      · simp at h2
      · simp only [] at h2
        rw [h2]
        exact ih
    | none =>
      obtain ⟨u, t, -, -, -, hship, -, rfl⟩ :=
        ship_samples_ok f0 user at_ now f1 hres
      intro hr
      obtain ⟨hc, -⟩ := ih hr
      rw [hship] at hc
      exact absurd hc (by simp)
  | receive f0 user at_ now hR ih =>
    rcases hres : File.shipment_was_received f0 user at_ now with ⟨err, f1⟩
    dsimp only
    cases err with
    | some e =>
      rcases shipment_was_received_unchanged_or_ok f0 user at_ now with h2 | h2 <;>
        rw [hres] at h2
      · simp at h2
      · simp only [] at h2
        rw [h2]
        exact ih
    | none =>
      obtain ⟨u, t, sd, -, -, hship, -, hsd, hnlt, rfl⟩ :=
        shipment_was_received_ok f0 user at_ now f1 hres
      intro hr
      exact ⟨hship, t, sd, rfl, hsd, le_of_not_lt hnlt⟩

/-- C2. A reachable file with `received = true` has its reception date set
and no earlier than its ship date; and `shipment_was_received` raises,
leaving the file unchanged, whenever the validated reception date is
strictly earlier than the ship date. -/
theorem C2_shipment_reception_invariant :
    (∀ f : File, Reachable f → f.received = true →
        f.shipped = true ∧
        ∃ rd sd, f.receive_date = some rd ∧ f.ship_date = some sd ∧ sd ≤ rd) ∧
    (∀ (f : File) (user : Option User) (at_ : Option String) (now t sd : Int),
        f.ship_date = some sd → f.validate_time at_ now "received" = .ok t →
        t < sd →
        ∃ e, f.shipment_was_received user at_ now = (some e, f)) := by
  constructor
  · intro f hR
    exact reachable_ship_inv f hR
  · intro f user at_ now t sd hsd hv hlt
    unfold File.shipment_was_received
    rcases user with _ | u
    · exact ⟨_, rfl⟩
    · dsimp only
      by_cases h1 : u.role ≠ "admin"
      · rw [if_pos h1]
        exact ⟨_, rfl⟩
      · rw [if_neg h1]
        by_cases h2 : f.shipped = false
        · rw [if_pos h2]
          exact ⟨_, rfl⟩
        · rw [if_neg h2, hv]
          dsimp only
          rw [hsd]
          dsimp only
          rw [if_pos hlt]
          exact ⟨_, rfl⟩

/-- The witness chain `fileA` to `fileD` is reachable. -/
theorem reachable_fileD : Reachable fileD := by
  have h0 : Reachable fileA :=
    Reachable.init "gd" "file" "AA" 1 1 1 1 7 1 1
      "2024-01-01" "2024-01-10" 1 fileA (by decide)
  have h1 : Reachable fileB := Reachable.validate fileA "success" h0
  have h2 : Reachable fileC :=
    Reachable.ship fileB (some authorUser) (some "2024-01-15") 0 h1
  exact Reachable.receive fileC (some adminUser) (some "2024-01-20") 0 h2

/-- Witness for C2: the received file `fileD` satisfies the invariant, and an
admin receive of `fileC` dated 2024-01-12 (before the 2024-01-15 ship date)
raises and leaves the file unchanged. -/
theorem C2_shipment_reception_invariant_witness :
    (fileD.shipped = true ∧
     ∃ rd sd, fileD.receive_date = some rd ∧ fileD.ship_date = some sd ∧
       sd ≤ rd) ∧
    (∃ e, fileC.shipment_was_received (some adminUser) (some "2024-01-12") 0 =
        (some e, fileC)) :=
  ⟨C2_shipment_reception_invariant.1 fileD reachable_fileD (by decide),
   C2_shipment_reception_invariant.2 fileC (some adminUser)
      (some "2024-01-12") 0 (dateCode 2024 1 12) (dateCode 2024 1 15)
      (by decide) (by decide) (by decide)⟩

/- ### C8 and C9: the spreadsheet extractor -/

/-- Case split on the first step of an `Except` bind chain. -/
theorem except_bind_cases {α β : Type} (P : Except PyErr β → Prop)
    (x : Except PyErr α) (f : α → Except PyErr β)
    (herr : ∀ e, P (.error e)) (hok : ∀ a, P (f a)) : P (x >>= f) := by
  cases x with
  | error e => exact herr e
  | ok a => exact hok a

/-- The general-information row of the C8 scenario: timepoints serialized as
the string [0,24,48], every other column an arbitrary cell. -/
def scenarioRow (r c b v bio batch partner sd ed : Cell) :
    List (String × Cell) :=
  [("replicates", r), ("control", c), ("blanks", b),
   ("compound_vehicle", v), ("timepoints", .str "[0,24,48]"),
   ("biosystem_name", bio), ("exposure_batch", batch),
   ("partner_id", partner), ("exposure_batch_startdate", sd),
   ("exposure_batch_enddate", ed)]

/-- The C8 scenario workbook: one general-information row and the
compound-name column X, X, Y. -/
def scenarioSheet (r c b v bio batch partner sd ed : Cell) : Spreadsheet :=
  { general_information := [scenarioRow r c b v bio batch partner sd ed],
    exposure_compound_name := ["X", "X", "Y"] }

/-- C8. On every workbook of the scenario shape, the extractor decodes the
serialized timepoints and hands exactly the three hour values 0, 24, 48 to
`create_timepoints_hours`, and hands the de-duplicated chemical-name list
(size 2, no repeats, same members as the column) to
`get_chemicals_from_name`; their results land in the returned record. -/
theorem C8_extractor_normalization :
    (∀ (r c b v bio batch partner sd ed : Cell)
        (ctph : List Int → Except PyErr (List Nat))
        (gcfn : List String → Except PyErr (List Nat)),
        extract_data_from_spreadsheet ctph gcfn
            (scenarioSheet r c b v bio batch partner sd ed) =
          (ctph [0, 24, 48] >>= fun tps =>
           gcfn ["X", "Y"] >>= fun chems =>
           pure [("replicates", .cell r),
                 ("controls", .cell c),
                 ("blanks", .cell b),
                 ("vehicle_name", .cell v),
                 ("timepoints", .tps tps),
                 ("chemicals", .chems chems),
                 ("organism_name", .cell bio),
                 ("batch", .cell batch),
                 ("organisation_name", .cell partner),
                 ("start_date", .cell sd),
                 ("end_date", .cell ed)])) ∧
    pySet ["X", "X", "Y"] = ["X", "Y"] ∧
    ([0, 24, 48] : List Int).length = 3 ∧
    (["X", "Y"] : List String).length = 2 ∧
    (["X", "Y"] : List String).Nodup ∧
    (∀ s : String, s ∈ (["X", "Y"] : List String) ↔
      s ∈ (["X", "X", "Y"] : List String)) := by
  refine ⟨?_, by decide, rfl, rfl, by decide, ?_⟩
  · intro r c b v bio batch partner sd ed ctph gcfn
    rfl
  · intro s
    simp only [List.mem_cons, List.not_mem_nil, or_false]
    tauto

/-- C9. The extractor never returns a partial record: on every workbook and
every collaborator behavior it either raises or returns a record carrying all
eleven keys (its declared option of returning no record is dead); an empty
general-information sheet raises `IndexError`; an error from the chemical
resolver (for instance an unknown name) prevents any record from being
returned. -/
theorem C9_extractor_error_policy :
    (∀ (ctph : List Int → Except PyErr (List Nat))
        (gcfn : List String → Except PyErr (List Nat)) (sp : Spreadsheet),
        (∃ e, extract_data_from_spreadsheet ctph gcfn sp = .error e) ∨
        (∃ rec, extract_data_from_spreadsheet ctph gcfn sp = .ok rec ∧
          rec.map Prod.fst = extractionRecordKeys)) ∧
    (∀ (ctph : List Int → Except PyErr (List Nat))
        (gcfn : List String → Except PyErr (List Nat)) (sp : Spreadsheet),
        sp.general_information = [] →
        extract_data_from_spreadsheet ctph gcfn sp =
          .error (.indexError "list index out of range")) ∧
    (∀ (ctph : List Int → Except PyErr (List Nat))
        (gcfn : List String → Except PyErr (List Nat)) (sp : Spreadsheet)
        (e : PyErr),
        gcfn (pySet sp.exposure_compound_name) = .error e →
        ∀ rec, extract_data_from_spreadsheet ctph gcfn sp ≠ .ok rec) := by
  refine ⟨?_, ?_, ?_⟩
  · intro ctph gcfn sp
    unfold extract_data_from_spreadsheet
    dsimp only
    cases sp.general_information.head? with
    | none => exact Or.inl ⟨_, rfl⟩
    | some gi =>
      refine except_bind_cases (fun res => (∃ e, res = Except.error e) ∨ (∃ rec : List (String × EValue), res = Except.ok rec ∧ rec.map Prod.fst = extractionRecordKeys)) _ _ (fun e => Or.inl ⟨e, rfl⟩) (fun gi2 => ?_)
      refine except_bind_cases (fun res => (∃ e, res = Except.error e) ∨ (∃ rec : List (String × EValue), res = Except.ok rec ∧ rec.map Prod.fst = extractionRecordKeys)) _ _ (fun e => Or.inl ⟨e, rfl⟩) (fun tpCell => ?_)
      cases tpCell with
      | num n => exact Or.inl ⟨_, rfl⟩
      | str s =>
        refine except_bind_cases (fun res => (∃ e, res = Except.error e) ∨ (∃ rec : List (String × EValue), res = Except.ok rec ∧ rec.map Prod.fst = extractionRecordKeys)) _ _ (fun e => Or.inl ⟨e, rfl⟩) (fun s2 => ?_)
        refine except_bind_cases (fun res => (∃ e, res = Except.error e) ∨ (∃ rec : List (String × EValue), res = Except.ok rec ∧ rec.map Prod.fst = extractionRecordKeys)) _ _ (fun e => Or.inl ⟨e, rfl⟩) (fun tpv => ?_)
        refine except_bind_cases (fun res => (∃ e, res = Except.error e) ∨ (∃ rec : List (String × EValue), res = Except.ok rec ∧ rec.map Prod.fst = extractionRecordKeys)) _ _ (fun e => Or.inl ⟨e, rfl⟩) (fun repl => ?_)
        refine except_bind_cases (fun res => (∃ e, res = Except.error e) ∨ (∃ rec : List (String × EValue), res = Except.ok rec ∧ rec.map Prod.fst = extractionRecordKeys)) _ _ (fun e => Or.inl ⟨e, rfl⟩) (fun ctrl => ?_)
        refine except_bind_cases (fun res => (∃ e, res = Except.error e) ∨ (∃ rec : List (String × EValue), res = Except.ok rec ∧ rec.map Prod.fst = extractionRecordKeys)) _ _ (fun e => Or.inl ⟨e, rfl⟩) (fun blk => ?_)
        refine except_bind_cases (fun res => (∃ e, res = Except.error e) ∨ (∃ rec : List (String × EValue), res = Except.ok rec ∧ rec.map Prod.fst = extractionRecordKeys)) _ _ (fun e => Or.inl ⟨e, rfl⟩) (fun veh => ?_)
        refine except_bind_cases (fun res => (∃ e, res = Except.error e) ∨ (∃ rec : List (String × EValue), res = Except.ok rec ∧ rec.map Prod.fst = extractionRecordKeys)) _ _ (fun e => Or.inl ⟨e, rfl⟩) (fun tps => ?_)
        refine except_bind_cases (fun res => (∃ e, res = Except.error e) ∨ (∃ rec : List (String × EValue), res = Except.ok rec ∧ rec.map Prod.fst = extractionRecordKeys)) _ _ (fun e => Or.inl ⟨e, rfl⟩) (fun chems => ?_)
        refine except_bind_cases (fun res => (∃ e, res = Except.error e) ∨ (∃ rec : List (String × EValue), res = Except.ok rec ∧ rec.map Prod.fst = extractionRecordKeys)) _ _ (fun e => Or.inl ⟨e, rfl⟩) (fun bio => ?_)
        refine except_bind_cases (fun res => (∃ e, res = Except.error e) ∨ (∃ rec : List (String × EValue), res = Except.ok rec ∧ rec.map Prod.fst = extractionRecordKeys)) _ _ (fun e => Or.inl ⟨e, rfl⟩) (fun batch => ?_)
        refine except_bind_cases (fun res => (∃ e, res = Except.error e) ∨ (∃ rec : List (String × EValue), res = Except.ok rec ∧ rec.map Prod.fst = extractionRecordKeys)) _ _ (fun e => Or.inl ⟨e, rfl⟩) (fun partner => ?_)
        refine except_bind_cases (fun res => (∃ e, res = Except.error e) ∨ (∃ rec : List (String × EValue), res = Except.ok rec ∧ rec.map Prod.fst = extractionRecordKeys)) _ _ (fun e => Or.inl ⟨e, rfl⟩) (fun sd => ?_)
        refine except_bind_cases (fun res => (∃ e, res = Except.error e) ∨ (∃ rec : List (String × EValue), res = Except.ok rec ∧ rec.map Prod.fst = extractionRecordKeys)) _ _ (fun e => Or.inl ⟨e, rfl⟩) (fun ed => ?_)
        exact Or.inr ⟨_, rfl, rfl⟩
  · intro ctph gcfn sp h
    unfold extract_data_from_spreadsheet
    rw [h]
    rfl
  · intro ctph gcfn sp e hgc
    unfold extract_data_from_spreadsheet
    dsimp only
    cases sp.general_information.head? with
    | none => exact fun rec h => Except.noConfusion h
    | some gi =>
      refine except_bind_cases (fun res => ∀ rec : List (String × EValue), res ≠ Except.ok rec) _ _ (fun e1 rec h => Except.noConfusion h) (fun gi2 => ?_)
      refine except_bind_cases (fun res => ∀ rec : List (String × EValue), res ≠ Except.ok rec) _ _ (fun e1 rec h => Except.noConfusion h) (fun tpCell => ?_)
      cases tpCell with
      | num n => exact fun rec h => Except.noConfusion h
      | str s =>
        refine except_bind_cases (fun res => ∀ rec : List (String × EValue), res ≠ Except.ok rec) _ _ (fun e1 rec h => Except.noConfusion h) (fun s2 => ?_)
        refine except_bind_cases (fun res => ∀ rec : List (String × EValue), res ≠ Except.ok rec) _ _ (fun e1 rec h => Except.noConfusion h) (fun tpv => ?_)
        refine except_bind_cases (fun res => ∀ rec : List (String × EValue), res ≠ Except.ok rec) _ _ (fun e1 rec h => Except.noConfusion h) (fun repl => ?_)
        refine except_bind_cases (fun res => ∀ rec : List (String × EValue), res ≠ Except.ok rec) _ _ (fun e1 rec h => Except.noConfusion h) (fun ctrl => ?_)
        refine except_bind_cases (fun res => ∀ rec : List (String × EValue), res ≠ Except.ok rec) _ _ (fun e1 rec h => Except.noConfusion h) (fun blk => ?_)
        refine except_bind_cases (fun res => ∀ rec : List (String × EValue), res ≠ Except.ok rec) _ _ (fun e1 rec h => Except.noConfusion h) (fun veh => ?_)
        refine except_bind_cases (fun res => ∀ rec : List (String × EValue), res ≠ Except.ok rec) _ _ (fun e1 rec h => Except.noConfusion h) (fun tps => ?_)
        rw [hgc]
        exact fun rec h => Except.noConfusion h

/-- A timepoint collaborator that accepts anything (witness data). -/
def okCollab : List Int → Except PyErr (List Nat) := fun _ => .ok []

/-- A chemical resolver that accepts anything (witness data). -/
def okChems : List String → Except PyErr (List Nat) := fun _ => .ok []

/-- A chemical resolver that rejects every name (witness data). -/
def failChems : List String → Except PyErr (List Nat) :=
  fun _ => .error (.valueError "chemical not found")

/-- A workbook whose general-information sheet is empty (witness data). -/
def emptySheet : Spreadsheet :=
  { general_information := [], exposure_compound_name := [] }

/-- Witness for C9: the empty general-information sheet raises `IndexError`,
and with a failing chemical resolver no record comes back from the scenario
workbook. -/
theorem C9_extractor_error_policy_witness :
    extract_data_from_spreadsheet okCollab okChems emptySheet =
      .error (.indexError "list index out of range") ∧
    extract_data_from_spreadsheet okCollab failChems
        (scenarioSheet (.num 1) (.num 1) (.num 1) (.str "w") (.str "o")
          (.str "AA") (.str "P") (.str "s") (.str "e")) ≠
      .ok [] :=
  ⟨C9_extractor_error_policy.2.1 okCollab okChems emptySheet rfl,
   C9_extractor_error_policy.2.2 okCollab failChems
     (scenarioSheet (.num 1) (.num 1) (.num 1) (.str "w") (.str "o")
       (.str "AA") (.str "P") (.str "s") (.str "e"))
     (.valueError "chemical not found") rfl []⟩

/- ### C5 and C6: the schema-derived column model -/

/-- The user-role test applied by `extract_empty_columns`. -/
def isUserField (p : String × FieldMeta) : Bool :=
  decide (p.2.role = "user")

/-- The fields of the schema whose role tag is user. -/
def userFields (props : List (String × FieldMeta)) :
    List (String × FieldMeta) :=
  props.filter isUserField

/-- Inserting a fresh key into a Python dict appends the pair. -/
theorem dictInsert_fresh (m : List (Nat × String)) (k : Nat) (v : String)
    (h : k ∉ m.map Prod.fst) : dictInsert m k v = m ++ [(k, v)] := by
  unfold dictInsert
  rw [if_neg]
  intro hany
  rw [List.any_eq_true] at hany
  obtain ⟨p, hp, hpk⟩ := hany
  rw [decide_eq_true_eq] at hpk
  exact h (hpk ▸ List.mem_map_of_mem Prod.fst hp)

/-- Every key of `dictInsert m k v` is the inserted key or a key of `m`. -/
theorem dictInsert_keys_subset (m : List (Nat × String)) (k : Nat) (v : String) :
    ∀ x, x ∈ (dictInsert m k v).map Prod.fst → x = k ∨ x ∈ m.map Prod.fst := by
  intro x hx
  unfold dictInsert at hx
  split at hx
  · obtain ⟨p, hp, hpx⟩ := List.mem_map.mp hx
    obtain ⟨q, hq, hqp⟩ := List.mem_map.mp hp
    by_cases hqk : q.1 = k
    · rw [if_pos hqk] at hqp
      subst hqp
      exact Or.inl hpx.symm
    · rw [if_neg hqk] at hqp
      subst hqp
      exact Or.inr (hpx ▸ List.mem_map_of_mem Prod.fst hq)
  · rw [List.map_append] at hx
    rcases List.mem_append.mp hx with h1 | h1
    · exact Or.inr h1
    · simp at h1
      exact Or.inl h1

/-- When the user-field order values (together with the accumulated keys) are
free of repeats, the first loop of `extract_empty_columns` appends one entry
per user field, keyed by its order value. -/
theorem fieldsMap_aux (props : List (String × FieldMeta)) :
    ∀ acc : List (Nat × String),
      (acc.map Prod.fst ++
        (userFields props).map (fun p => p.2.order)).Nodup →
      props.foldl
          (fun m p => if p.2.role = "user" then dictInsert m p.2.order p.1
            else m) acc =
        acc ++ (userFields props).map (fun p => (p.2.order, p.1)) := by
  induction props with
  | nil =>
    intro acc h
    simp [userFields]
  | cons p rest ih =>
    intro acc h
    by_cases hp : p.2.role = "user"
    · have huf : userFields (p :: rest) = p :: userFields rest := by
        simp [userFields, List.filter_cons, isUserField, hp]
      rw [huf] at h ⊢
      rw [List.foldl_cons]
      rw [if_pos hp]
      have hnotin : p.2.order ∉ acc.map Prod.fst := by
        intro hmem
        exact List.disjoint_of_nodup_append h hmem
          (by rw [List.map_cons]; exact List.mem_cons_self _ _)
      have hnd2 : ((acc ++ [(p.2.order, p.1)]).map Prod.fst ++
          (userFields rest).map (fun p => p.2.order)).Nodup := by
        rw [List.map_append, List.append_assoc]
        simpa using h
      rw [dictInsert_fresh acc p.2.order p.1 hnotin, ih _ hnd2]
      simp
    · have huf : userFields (p :: rest) = userFields rest := by
        simp [userFields, List.filter_cons, isUserField, hp]
      rw [huf] at h ⊢
      rw [List.foldl_cons]
      rw [if_neg hp]
      exact ih acc h

/-- `fields_map` as an explicit association list, when the user-field order
values are free of repeats. -/
theorem fieldsMap_eq (props : List (String × FieldMeta))
    (h : ((userFields props).map (fun p => p.2.order)).Nodup) :
    fieldsMap props = (userFields props).map (fun p => (p.2.order, p.1)) := by
  have h2 := fieldsMap_aux props [] (by simpa using h)
  simpa [fieldsMap] using h2

/-- Dict lookup finds the unique pair carrying its key. -/
theorem dictGet_of_mem : ∀ (l : List (Nat × String)) (k : Nat) (v : String),
    (l.map Prod.fst).Nodup → (k, v) ∈ l → dictGet l k = some v := by
  intro l
  induction l with
  | nil =>
    intro k v hnd h
    cases h
  | cons p rest ih =>
    intro k v hnd hmem
    rcases List.mem_cons.mp hmem with heq | hmem2
    · subst heq
      unfold dictGet
      rw [List.find?_cons_of_pos _ (by simp)]
      rfl
    · have hk : ¬(p.1 = k) := by
        intro hpk
        have hmk : k ∈ rest.map Prod.fst :=
          List.mem_map_of_mem Prod.fst hmem2
        rw [List.map_cons] at hnd
        exact (List.nodup_cons.mp hnd).1 (hpk ▸ hmk)
      unfold dictGet
      rw [List.find?_cons_of_neg _ (by simpa using hk)]
      have hr : (rest.map Prod.fst).Nodup := by
        rw [List.map_cons] at hnd
        exact (List.nodup_cons.mp hnd).2
      exact ih k v hr hmem2

/-- Dict lookup of an absent key fails. -/
theorem dictGet_eq_none (l : List (Nat × String)) (k : Nat)
    (h : k ∉ l.map Prod.fst) : dictGet l k = none := by
  have hn : List.find? (fun p => decide (p.1 = k)) l = none := by
    rw [List.find?_eq_none]
    intro p hp hpk
    rw [decide_eq_true_eq] at hpk
    exact h (hpk ▸ List.mem_map_of_mem Prod.fst hp)
  simp [dictGet, hn]

/-- Every key of the `fields_map` fold comes from the accumulator or from a
user field of the schema. -/
theorem foldKeys_origin (props : List (String × FieldMeta)) :
    ∀ (acc : List (Nat × String)) (k : Nat),
      k ∈ ((props.foldl
        (fun m p => if p.2.role = "user" then dictInsert m p.2.order p.1
          else m) acc).map Prod.fst) →
      k ∈ acc.map Prod.fst ∨
        ∃ p, p ∈ props ∧ p.2.role = "user" ∧ p.2.order = k := by
  induction props with
  | nil =>
    intro acc k h
    exact Or.inl h
  | cons p rest ih =>
    intro acc k h
    rw [List.foldl_cons] at h
    by_cases hp : p.2.role = "user"
    · rw [if_pos hp] at h
      rcases ih (dictInsert acc p.2.order p.1) k h with h2 | ⟨q, hq, hqr, hqo⟩
      · rcases dictInsert_keys_subset acc p.2.order p.1 k h2 with rfl | h3
        · exact Or.inr ⟨p, List.mem_cons_self _ _, hp, rfl⟩
        · exact Or.inl h3
      · exact Or.inr ⟨q, List.mem_cons_of_mem _ hq, hqr, hqo⟩
    · rw [if_neg hp] at h
      rcases ih acc k h with h2 | ⟨q, hq, hqr, hqo⟩
      · exact Or.inl h2
      · exact Or.inr ⟨q, List.mem_cons_of_mem _ hq, hqr, hqo⟩

/-- The second loop succeeds and returns the looked-up names when every
requested key is present. -/
theorem collectFields_all_some (m : List (Nat × String)) :
    ∀ ks : List Nat, (∀ k ∈ ks, dictGet m k ≠ none) →
      collectFields m ks = .ok (ks.map (fun k => (dictGet m k).getD "")) := by
  intro ks
  induction ks with
  | nil =>
    intro h
    rfl
  | cons k rest ih =>
    intro h
    cases hk : dictGet m k with
    | none => exact absurd hk (h k (List.mem_cons_self _ _))
    | some v =>
      have hr := ih (fun j hj => h j (List.mem_cons_of_mem _ hj))
      simp only [collectFields, hk, hr, List.map_cons]
      simp [hk]

/-- The second loop raises a `KeyError` when some requested key is absent. -/
theorem collectFields_err (m : List (Nat × String)) :
    ∀ (ks : List Nat) (k : Nat), k ∈ ks → dictGet m k = none →
      ∃ s, collectFields m ks = .error (.keyError s) := by
  intro ks
  induction ks with
  | nil =>
    intro k h
    cases h
  | cons k0 rest ih =>
    intro k hk hnone
    rcases List.mem_cons.mp hk with rfl | hmem
    · exact ⟨toString k, by simp [collectFields, hnone]⟩
    · cases h0 : dictGet m k0 with
      | none => exact ⟨toString k0, by simp [collectFields, h0]⟩
      | some v =>
        obtain ⟨s, hs⟩ := ih k hmem hnone
        exact ⟨s, by simp [collectFields, h0, hs]⟩

/-- The requested keys 1, 2, ..., length of the map. -/
theorem rangeKeys_eq (n : Nat) :
    (List.range n).map (· + 1) = List.range' 1 n := by
  rw [List.range'_eq_map_range]
  exact List.map_congr_left (fun a _ => Nat.add_comm a 1)

/-- C5. On every schema whose user-field order values form a contiguous
1..N sequence, `extract_empty_columns` returns exactly N names, the one at
0-based index i being the field whose order value is i + 1 (the function is
a pure function of the schema). -/
theorem C5_column_model :
    ∀ props : List (String × FieldMeta),
      ((userFields props).map (fun p => p.2.order)).Perm
        (List.range' 1 (userFields props).length) →
      ∃ l, extract_empty_columns props = .ok l ∧
        l.length = (userFields props).length ∧
        ∀ (i : Nat) (h : i < l.length) (name : String) (meta : FieldMeta),
          (name, meta) ∈ props → meta.role = "user" → meta.order = i + 1 →
          l.get ⟨i, h⟩ = name := by
  intro props hperm
  have hnd : ((userFields props).map (fun p => p.2.order)).Nodup :=
    hperm.nodup_iff.mpr (List.nodup_range' 1 (userFields props).length)
  have hfm := fieldsMap_eq props hnd
  have hkeys : (fieldsMap props).map Prod.fst =
      (userFields props).map (fun p => p.2.order) := by
    rw [hfm, List.map_map]
    rfl
  have hfmlen : (fieldsMap props).length = (userFields props).length := by
    rw [hfm, List.length_map]
  have hkseq : (List.range (fieldsMap props).length).map (· + 1) =
      List.range' 1 (userFields props).length := by
    rw [hfmlen, rangeKeys_eq]
  have hlook : ∀ k ∈ List.range' 1 (userFields props).length,
      dictGet (fieldsMap props) k ≠ none := by
    intro k hk
    obtain ⟨p, hp, hpk⟩ := List.mem_map.mp (hperm.mem_iff.mpr hk)
    have hg : dictGet (fieldsMap props) k = some p.1 := by
      apply dictGet_of_mem
      · rw [hkeys]
        exact hnd
      · rw [hfm]
        exact hpk ▸ List.mem_map_of_mem (fun p => (p.2.order, p.1)) hp
    rw [hg]
    simp
  refine ⟨((List.range (fieldsMap props).length).map (· + 1)).map
      (fun k => (dictGet (fieldsMap props) k).getD ""), ?_, ?_, ?_⟩
  · unfold extract_empty_columns
    exact collectFields_all_some _ _ (by rw [hkseq]; exact hlook)
  · simp [hfmlen]
  · intro i h name meta hmem hrole horder
    have hum : (name, meta) ∈ userFields props :=
      List.mem_filter.mpr ⟨hmem, by simp [isUserField, hrole]⟩
    have hget : dictGet (fieldsMap props) (i + 1) = some name := by
      apply dictGet_of_mem
      · rw [hkeys]
        exact hnd
      · rw [hfm]
        refine List.mem_map.mpr ⟨(name, meta), hum, ?_⟩
        simp [horder]
    rw [List.get_eq_getElem]
    simp only [List.getElem_map, List.getElem_range]
    rw [hget]
    rfl

/-- A well-formed schema used as the C5 witness: user fields a and c with
order values 2 and 1, one system field. -/
def goodSchema : List (String × FieldMeta) :=
  [("a", ⟨"user", 2⟩), ("b", ⟨"system", 5⟩), ("c", ⟨"user", 1⟩)]

/-- Witness for C5 at the concrete schema `goodSchema`. -/
theorem C5_column_model_witness :
    ∃ l, extract_empty_columns goodSchema = .ok l ∧
      l.length = (userFields goodSchema).length ∧
      ∀ (i : Nat) (h : i < l.length) (name : String) (meta : FieldMeta),
        (name, meta) ∈ goodSchema → meta.role = "user" → meta.order = i + 1 →
        l.get ⟨i, h⟩ = name :=
  C5_column_model goodSchema (by decide)

/-- A malformed schema: two user fields share the order value 1. -/
def badSchema : List (String × FieldMeta) :=
  [("a", ⟨"user", 1⟩), ("b", ⟨"user", 1⟩)]

/-- Counterexample to C6 as stated: on `badSchema` the user-field order
values are not a contiguous 1..N permutation, yet `extract_empty_columns`
raises nothing and silently returns the one-element list b (the later field
overwrote the earlier one in the dict). -/
theorem C6_counterexample :
    ¬ ((userFields badSchema).map (fun p => p.2.order)).Perm
        (List.range' 1 (userFields badSchema).length) ∧
    extract_empty_columns badSchema = .ok ["b"] :=
  ⟨by decide, by decide⟩

/-- C6 as amended. The function raises a `KeyError` only on a gap: whenever
some index between 1 and the number of distinct user-field order values is
not the order value of any user field. (Duplicate order values that still
cover a contiguous prefix escape detection, as `C6_counterexample` shows.) -/
theorem C6_gap_raises_key_error :
    ∀ (props : List (String × FieldMeta)) (i : Nat),
      1 ≤ i → i ≤ (fieldsMap props).length →
      (∀ p ∈ props, p.2.role = "user" → p.2.order ≠ i) →
      ∃ s, extract_empty_columns props = .error (.keyError s) := by
  intro props i h1 h2 h3
  have hkey : dictGet (fieldsMap props) i = none := by
    apply dictGet_eq_none
    intro hmem
    rcases foldKeys_origin props [] i (by simpa [fieldsMap] using hmem) with
      h4 | ⟨p, hp, hrole, horder⟩
    · simp at h4
    · exact h3 p hp hrole horder
  have hmemks : i ∈ (List.range (fieldsMap props).length).map (· + 1) := by
    refine List.mem_map.mpr ⟨i - 1, List.mem_range.mpr (by omega), by omega⟩
  unfold extract_empty_columns
  exact collectFields_err _ _ i hmemks hkey

/-- Witness for C6 (amended): the schema with user orders 1 and 3 has a gap
at 2 and makes the function raise a `KeyError`. -/
theorem C6_gap_raises_key_error_witness :
    ∃ s, extract_empty_columns
        [("a", (⟨"user", 1⟩ : FieldMeta)), ("b", (⟨"user", 3⟩ : FieldMeta))] =
      .error (.keyError s) :=
  C6_gap_raises_key_error
    [("a", ⟨"user", 1⟩), ("b", ⟨"user", 3⟩)] 2
    (by decide) (by decide) (by decide)
